import Mathlib

/-!
Verification development for the StartupOps repository.

The development embeds, as Lean definitions, the permission table of
frontend/src/contexts/AuthContext.js, the client swipe / undo / remove-match
handlers of frontend/src/pages/InvestorFeedPage.js, and the relational store
shaped by the SQL schema (startups, startup_members, investor_swipes tables).
Server-side operations whose implementation is not part of the sources
(the swipe upsert, invite-code redemption, metrics snapshot) are modelled
from the specification, as marked in their doc comments.
-/

namespace StartupOps

/-! ## Authorization: the PERMISSIONS predicates (AuthContext.js, lines 44-55) -/

namespace PERMISSIONS

/-- Embeds canManageContent: role is founder or manager. -/
def canManageContent (role : String) : Bool :=
  (["founder", "manager"] : List String).contains role

/-- Embeds canViewAnalytics: role is founder or manager. -/
def canViewAnalytics (role : String) : Bool :=
  (["founder", "manager"] : List String).contains role

/-- Embeds canAccessPitch: role is founder. -/
def canAccessPitch (role : String) : Bool :=
  role == "founder"

/-- Embeds canManageTeam: role is founder or manager. -/
def canManageTeam (role : String) : Bool :=
  (["founder", "manager"] : List String).contains role

/-- Embeds canViewTeam: role is founder, manager or member. -/
def canViewTeam (role : String) : Bool :=
  (["founder", "manager", "member"] : List String).contains role

/-- Embeds canViewTasks: role is founder, manager or member. -/
def canViewTasks (role : String) : Bool :=
  (["founder", "manager", "member"] : List String).contains role

/-- Embeds canManageStartup: role is founder. -/
def canManageStartup (role : String) : Bool :=
  role == "founder"

/-- Embeds canViewInvestorFeed: role is investor. -/
def canViewInvestorFeed (role : String) : Bool :=
  role == "investor"

/-- Embeds canViewMyInvestments: role is investor. -/
def canViewMyInvestments (role : String) : Bool :=
  role == "investor"

/-- Embeds canManageInvestors: role is founder or manager. -/
def canManageInvestors (role : String) : Bool :=
  (["founder", "manager"] : List String).contains role

end PERMISSIONS

/-- Capability record: one Boolean per predicate of the PERMISSIONS object. -/
structure Permissions where
  canManageContent : Bool
  canViewAnalytics : Bool
  canAccessPitch : Bool
  canManageTeam : Bool
  canViewTeam : Bool
  canViewTasks : Bool
  canManageStartup : Bool
  canViewInvestorFeed : Bool
  canViewMyInvestments : Bool
  canManageInvestors : Bool
deriving DecidableEq

/-- Embeds the permissions useMemo of AuthContext.js (lines 219-233): the full
capability record obtained by applying every PERMISSIONS predicate to a role. -/
def derivePermissions (role : String) : Permissions where
  canManageContent := PERMISSIONS.canManageContent role
  canViewAnalytics := PERMISSIONS.canViewAnalytics role
  canAccessPitch := PERMISSIONS.canAccessPitch role
  canManageTeam := PERMISSIONS.canManageTeam role
  canViewTeam := PERMISSIONS.canViewTeam role
  canViewTasks := PERMISSIONS.canViewTasks role
  canManageStartup := PERMISSIONS.canManageStartup role
  canViewInvestorFeed := PERMISSIONS.canViewInvestorFeed role
  canViewMyInvestments := PERMISSIONS.canViewMyInvestments role
  canManageInvestors := PERMISSIONS.canManageInvestors role

/-- Transcription of the capability table of spec section 4.2, row by row, with
each spec capability mapped to the predicate of the same meaning: manage
workspace settings is canManageStartup, create/edit/delete tasks is
canManageContent, change own assigned task status is canViewTasks, view
analytics is canViewAnalytics, pitch generation is canAccessPitch, view team
roster is canViewTeam, remove members / change roles is canManageTeam,
browse/swipe is canViewInvestorFeed, manage own investment records is
canViewMyInvestments, and view founder-facing investor portal is
canManageInvestors. This definition follows the words of the spec, to be
compared with derivePermissions, which follows the code. -/
def specDerivePermissions (role : String) : Permissions where
  canManageContent := (["founder", "manager"] : List String).contains role
  canViewAnalytics := (["founder", "manager"] : List String).contains role
  canAccessPitch := role == "founder"
  canManageTeam := role == "founder"
  canViewTeam := (["founder", "manager", "member"] : List String).contains role
  canViewTasks := (["founder", "manager", "member"] : List String).contains role
  canManageStartup := role == "founder"
  canViewInvestorFeed := role == "investor"
  canViewMyInvestments := role == "investor"
  canManageInvestors := role == "founder"

/-- Client-side record of the currently selected workspace, keeping the only
field the role derivation reads: user_role, absent or empty when the backend
supplied none. -/
structure ClientStartup where
  id : String
  user_role : Option String
deriving DecidableEq

/-- Embeds the userRole useMemo of AuthContext.js (lines 214-217):
currentStartup orElse user_role orElse the string member, where a missing
selection, a missing field and an empty string are all falsy in JavaScript. -/
def userRole (currentStartup : Option ClientStartup) : String :=
  match currentStartup with
  | none => "member"
  | some s =>
    match s.user_role with
    | none => "member"
    | some r => if r = "" then "member" else r

/-! ## The investor_swipes table (SQL schema, lines 151-158) and its operations -/

/-- The action column: check (action in (interested, passed)). -/
inductive Action
  | interested
  | passed
deriving DecidableEq

/-- One row of the investor_swipes table: investor_id, startup_id, action.
The unique(investor_id, startup_id) constraint is what the operations below
must preserve. -/
structure SwipeRow where
  investor : String
  startup : String
  action : Action
deriving DecidableEq

/-- Tests whether a row belongs to the given (investor, workspace) pair. -/
def pairMatch (inv w : String) (r : SwipeRow) : Bool :=
  r.investor == inv && r.startup == w

/-- The rows of the table for one (investor, workspace) pair. -/
def pairRows (inv w : String) (rows : List SwipeRow) : List SwipeRow :=
  rows.filter (pairMatch inv w)

/-- Modelled from the spec: the backend swipe operation (POST
/investor/swipe) is not part of the sources; per sections 4.3 and 5 it
upserts the SwipeAction row atomically against the unique(investor_id,
startup_id) constraint, inserting when the pair is unseen and overwriting
the action when a row is already present (last write wins). -/
def swipeOp (inv w : String) (a : Action) (rows : List SwipeRow) : List SwipeRow :=
  if rows.any (pairMatch inv w) then
    rows.map (fun r => if pairMatch inv w r then { r with action := a } else r)
  else
    rows ++ [⟨inv, w, a⟩]

/-- Modelled from the spec: the backend undo / removeMatch deletion (DELETE
/investor/matches) is not part of the sources; per section 4.3 it deletes
the SwipeAction row of the pair, a silent no-op when the pair is unseen. -/
def undoOp (inv w : String) (rows : List SwipeRow) : List SwipeRow :=
  rows.filter (fun r => !(pairMatch inv w r))

/-- One call of the matching engine: a swipe with its action, or an undo. -/
inductive MatchCall
  | swipe (inv w : String) (a : Action)
  | undo (inv w : String)

/-- Applies one matching-engine call to the swipe table. -/
def applyCall (rows : List SwipeRow) : MatchCall → List SwipeRow
  | .swipe inv w a => swipeOp inv w a rows
  | .undo inv w => undoOp inv w rows

/-- Applies a finite sequence of matching-engine calls, oldest first. -/
def applyCalls (rows : List SwipeRow) (cs : List MatchCall) : List SwipeRow :=
  cs.foldl applyCall rows

/-- The decision a single call leaves for a fixed (investor, workspace) pair:
a swipe of that pair records its action, an undo of that pair clears it, and
calls on other pairs leave it alone. -/
def stepDecision (inv w : String) (d : Option Action) : MatchCall → Option Action
  | .swipe i s a => if i == inv && s == w then some a else d
  | .undo i s => if i == inv && s == w then none else d

/-- The decision standing for the pair after a whole call sequence. -/
def lastDecision (inv w : String) (cs : List MatchCall) : Option Action :=
  cs.foldl (stepDecision inv w) none

/-- The table rows a standing decision corresponds to: none gives no row,
some action gives exactly one row holding that action. -/
def decisionRows (inv w : String) : Option Action → List SwipeRow
  | none => []
  | some a => [⟨inv, w, a⟩]

/-! ## Client state of InvestorFeedPage.js and its handlers -/

/-- A startup card of the browse / matches lists, kept to its identity. -/
structure StartupCard where
  id : String
deriving DecidableEq

/-- Local component state of InvestorFeedPage: browsableStartups,
currentIndex and matches (lines 299-301); the matches field is named
matchList here because matches is a reserved word in Lean. -/
structure ClientState where
  browsable : List StartupCard
  currentIndex : Nat
  matchList : List StartupCard
deriving DecidableEq

/-- Combined observable state: the server-side swipe table together with the
client component state. -/
structure FeedState where
  rows : List SwipeRow
  client : ClientState
deriving DecidableEq

/-- Embeds handleSwipe (InvestorFeedPage.js, lines 329-354) together with the
server effect of the awaited POST. When no card sits at currentIndex the
handler returns at once. When the request fails the catch block only shows a
toast, leaving all state unchanged. On success the swipe is recorded
server-side, the card is prepended to matches exactly when the action is
interested, and currentIndex grows by one. -/
def handleSwipe (inv : String) (a : Action) (requestOk : Bool) (st : FeedState) : FeedState :=
  match st.client.browsable[st.client.currentIndex]? with
  | none => st
  | some card =>
    if requestOk then
      { rows := swipeOp inv card.id a st.rows
        client :=
          { st.client with
            currentIndex := st.client.currentIndex + 1
            matchList :=
              if a = Action.interested then card :: st.client.matchList
              else st.client.matchList } }
    else st

/-- Embeds handleUndoSwipe (InvestorFeedPage.js, lines 366-370): when
currentIndex is 0 it returns at once; otherwise it decrements currentIndex.
No request is issued, so the server-side swipe table is untouched. -/
def handleUndoSwipe (st : FeedState) : FeedState :=
  if st.client.currentIndex = 0 then st
  else { st with client := { st.client with currentIndex := st.client.currentIndex - 1 } }

/-- Embeds handleRemoveMatch (InvestorFeedPage.js, lines 356-364) together
with the server effect of the awaited DELETE, which is modelled from the
spec as undoOp since the backend handler is not part of the sources. When
the request fails the catch block only shows a toast; on success the swipe
row of the pair is deleted server-side and the card is filtered out of the
client matches list. -/
def handleRemoveMatch (inv startupId : String) (requestOk : Bool) (st : FeedState) : FeedState :=
  if requestOk then
    { rows := undoOp inv startupId st.rows
      client := { st.client with matchList := st.client.matchList.filter (fun m => m.id != startupId) } }
  else st

/-! ## The relational store: startups and startup_members (SQL schema) -/

/-- One row of the startups table kept to the columns the claims touch:
id, name, founder_id and invite_code. The schema declares invite_code as a
plain text column (line 23) with no uniqueness constraint. -/
structure Workspace where
  id : String
  name : String
  founderId : String
  inviteCode : String
deriving DecidableEq

/-- One row of the startup_members table: startup_id, user_id, role, subject
to check (role in (founder, manager, member, investor)) and
unique(startup_id, user_id). -/
structure Membership where
  startup : String
  user : String
  role : String
deriving DecidableEq

/-- The relational store restricted to the tables the claims touch. -/
structure Store where
  workspaces : List Workspace
  members : List Membership
  swipes : List SwipeRow
deriving DecidableEq

/-- Detects a duplicated (startup_id, user_id) key among membership rows. -/
def hasDupMembershipKey : List Membership → Bool
  | [] => false
  | m :: ms =>
    ms.any (fun x => x.startup == m.startup && x.user == m.user) || hasDupMembershipKey ms

/-- Detects a duplicated (investor_id, startup_id) key among swipe rows. -/
def hasDupSwipeKey : List SwipeRow → Bool
  | [] => false
  | r :: rs =>
    rs.any (fun x => x.investor == r.investor && x.startup == r.startup) || hasDupSwipeKey rs

/-- Runs exactly the checks the SQL schema declares on the modelled tables:
unique(startup_id, user_id) on startup_members, unique(investor_id,
startup_id) on investor_swipes, and the role check constraint. The schema
declares no constraint on startups.invite_code. -/
def schemaConstraintsOk (s : Store) : Bool :=
  !hasDupMembershipKey s.members &&
  !hasDupSwipeKey s.swipes &&
  s.members.all (fun m => (["founder", "manager", "member", "investor"] : List String).contains m.role)

/-- Membership rows carry pairwise distinct (startup_id, user_id) keys. -/
def membershipPairsUnique (s : Store) : Prop :=
  s.members.Pairwise (fun a b => ¬(a.startup = b.startup ∧ a.user = b.user))

/-- Swipe rows carry pairwise distinct (investor_id, startup_id) keys. -/
def swipePairsUnique (rows : List SwipeRow) : Prop :=
  rows.Pairwise (fun a b => ¬(a.investor = b.investor ∧ a.startup = b.startup))

/-- Invite codes are globally unique across workspaces. -/
def inviteCodesUnique (s : Store) : Prop :=
  s.workspaces.Pairwise (fun a b => a.inviteCode ≠ b.inviteCode)

/-- Errors of the invite-redemption path named by the spec. -/
inductive RedeemError
  | NotFoundError
  | ConflictError
deriving DecidableEq

/-- Modelled from the spec: redeemInviteCode (section 4.1) is a backend
operation not part of the sources. It looks the workspace up by code,
failing with NotFoundError when the code is unknown; fails with
ConflictError when the user already holds a membership of that workspace,
the path the unique(startup_id, user_id) constraint backs; and otherwise
inserts a membership row with the requested role. -/
def redeemInviteCode (userId code role : String) (s : Store) : Except RedeemError Store :=
  match s.workspaces.find? (fun w => w.inviteCode == code) with
  | none => Except.error RedeemError.NotFoundError
  | some w =>
    if s.members.any (fun m => m.startup == w.id && m.user == userId) then
      Except.error RedeemError.ConflictError
    else
      Except.ok { s with members := s.members ++ [⟨w.id, userId, role⟩] }

/-! ## Metrics engine -/

/-- A ledger entry reduced to the fields the snapshot reads: the amount and
the calendar month the date falls in (encoded as one number). -/
structure LedgerEntry where
  amount : ℚ
  month : Nat
deriving DecidableEq

/-- The four source reads the snapshot aggregates: the income, expense and
investment ledgers of a workspace and the roles of its membership rows. -/
structure SnapshotInput where
  incomes : List LedgerEntry
  expenses : List LedgerEntry
  investments : List ℚ
  memberRoles : List String
deriving DecidableEq

/-- The point-in-time financial snapshot. The runway is an Option, none
standing for the non-numeric sentinel of the non-burning case. -/
structure Snapshot where
  totalRaised : ℚ
  balance : ℚ
  monthlyBurn : ℚ
  runwayMonths : Option ℚ
  teamSize : Nat
deriving DecidableEq

/-- Modelled from the spec: computeSnapshot (section 4.4) is a backend
operation not part of the sources. totalRaised sums the investments;
balance is income plus totalRaised minus expenses; monthlyBurn averages the
expense sums of the calendar months present in the expense data (total
expenses divided by the number of distinct months), 0 when no expense
history exists; runwayMonths is balance divided by monthlyBurn when the
burn is positive and the none sentinel otherwise; teamSize counts the
membership rows whose role is not investor. -/
def computeSnapshot (inp : SnapshotInput) : Snapshot :=
  let totalRaised := inp.investments.sum
  let totalIncome := (inp.incomes.map (fun e => e.amount)).sum
  let totalExpense := (inp.expenses.map (fun e => e.amount)).sum
  let balance := totalIncome + totalRaised - totalExpense
  let monthsPresent := (inp.expenses.map (fun e => e.month)).dedup
  let monthlyBurn := if monthsPresent.length = 0 then 0 else totalExpense / (monthsPresent.length : ℚ)
  { totalRaised := totalRaised
    balance := balance
    monthlyBurn := monthlyBurn
    runwayMonths := if 0 < monthlyBurn then some (balance / monthlyBurn) else none
    teamSize := (inp.memberRoles.filter (fun r => r != "investor")).length }

/-! ## Claims about the authorization engine -/

/-- Claim C1, counterexample: the claim says the remove-members / change-roles
capability (canManageTeam) and the founder-facing investor portal capability
(canManageInvestors) are granted to the founder role and to no other role.
At the concrete role manager both predicates grant, so the code table differs
from the table of spec section 4.2 at that role. -/
theorem c1_founder_only_counterexample :
    PERMISSIONS.canManageTeam "manager" = true ∧
    PERMISSIONS.canManageInvestors "manager" = true ∧
    derivePermissions "manager" ≠ specDerivePermissions "manager" := by
  decide

/-- Claim C1, amended: derivePermissions realises the table of spec section
4.2 except in two cells — canManageTeam (remove members / change roles) and
canManageInvestors (view founder-facing investor portal) are granted to both
founder and manager, not to founder alone. The first four conjuncts give the
exact capability set of each role; the last states that the spec table equals
the code table with exactly those two capabilities tightened to founder. -/
theorem c1_permissions_table_amended :
    derivePermissions "founder" =
      ⟨true, true, true, true, true, true, true, false, false, true⟩ ∧
    derivePermissions "manager" =
      ⟨true, true, false, true, true, true, false, false, false, true⟩ ∧
    derivePermissions "member" =
      ⟨false, false, false, false, true, true, false, false, false, false⟩ ∧
    derivePermissions "investor" =
      ⟨false, false, false, false, false, false, false, true, true, false⟩ ∧
    ∀ role : String,
      specDerivePermissions role =
        { derivePermissions role with
          canManageTeam := role == "founder"
          canManageInvestors := role == "founder" } := by
  refine ⟨by decide, by decide, by decide, by decide, fun role => rfl⟩

/-- Claim C8: whenever no workspace is selected or the selected workspace
carries no user_role value, the derived role defaults to member, and the
member role receives exactly canViewTeam and canViewTasks, every other
capability being false. -/
theorem c8_default_member_role (cs : Option ClientStartup)
    (h : cs = none ∨ ∃ s, cs = some s ∧ (s.user_role = none ∨ s.user_role = some "")) :
    userRole cs = "member" ∧
    derivePermissions (userRole cs) =
      ⟨false, false, false, false, true, true, false, false, false, false⟩ := by
  have hm : userRole cs = "member" := by
    rcases h with h | ⟨s, rfl, h⟩
    · subst h; rfl
    · rcases h with h | h <;> simp [userRole, h]
  refine ⟨hm, ?_⟩
  rw [hm]
  decide

/-- Claim C8, witness: the theorem applied to the empty selection. -/
theorem c8_default_member_role_witness :
    userRole none = "member" ∧
    derivePermissions (userRole none) =
      ⟨false, false, false, false, true, true, false, false, false, false⟩ :=
  c8_default_member_role none (Or.inl rfl)

/-- Claim C10: a role string outside founder, manager, member and investor
receives the empty capability set — every PERMISSIONS predicate returns
false on it. -/
theorem c10_unknown_role_empty_capabilities (role : String)
    (h1 : role ≠ "founder") (h2 : role ≠ "manager")
    (h3 : role ≠ "member") (h4 : role ≠ "investor") :
    derivePermissions role =
      ⟨false, false, false, false, false, false, false, false, false, false⟩ := by
  have e1 : (role == "founder") = false := beq_eq_false_iff_ne.mpr h1
  have e2 : (role == "manager") = false := beq_eq_false_iff_ne.mpr h2
  have e3 : (role == "member") = false := beq_eq_false_iff_ne.mpr h3
  have e4 : (role == "investor") = false := beq_eq_false_iff_ne.mpr h4
  simp [derivePermissions, PERMISSIONS.canManageContent, PERMISSIONS.canViewAnalytics,
    PERMISSIONS.canAccessPitch, PERMISSIONS.canManageTeam, PERMISSIONS.canViewTeam,
    PERMISSIONS.canViewTasks, PERMISSIONS.canManageStartup, PERMISSIONS.canViewInvestorFeed,
    PERMISSIONS.canViewMyInvestments, PERMISSIONS.canManageInvestors,
    List.contains, List.elem, e1, e2, e3, e4]

/-- Claim C10, witness: the theorem applied to the concrete role admin. -/
theorem c10_unknown_role_empty_capabilities_witness :
    ("admin" : String) ≠ "founder" ∧
    derivePermissions "admin" =
      ⟨false, false, false, false, false, false, false, false, false, false⟩ :=
  ⟨by decide,
    c10_unknown_role_empty_capabilities "admin" (by decide) (by decide) (by decide) (by decide)⟩

/-! ## Claims about the InvestorFeedPage handlers -/

/-- Claim C2, counterexample: in a state whose pair (inv1, w1) is decided —
a SwipeAction row is present — invoking the undo handler does not delete the
row: the server-side swipe table is exactly what it was, so the pair does not
return to unseen. -/
theorem c2_undo_counterexample :
    pairRows "inv1" "w1"
        (FeedState.mk [⟨"inv1", "w1", Action.interested⟩] ⟨[⟨"w1"⟩], 1, [⟨"w1"⟩]⟩).rows ≠ [] ∧
    (handleUndoSwipe
        (FeedState.mk [⟨"inv1", "w1", Action.interested⟩] ⟨[⟨"w1"⟩], 1, [⟨"w1"⟩]⟩)).rows =
      [⟨"inv1", "w1", Action.interested⟩] := by
  decide

/-- Claim C2, amended: the undo handler is purely client-side. It never
touches the SwipeAction relation, the browsable list or the matches list; it
only decrements the local browse index by one, with truncation at zero, so
it is a silent no-op when the index is already zero. Deleting the SwipeAction
row is done by the remove-match operation, not by undo. -/
theorem c2_undo_client_only_amended (st : FeedState) :
    (handleUndoSwipe st).rows = st.rows ∧
    (handleUndoSwipe st).client.browsable = st.client.browsable ∧
    (handleUndoSwipe st).client.matchList = st.client.matchList ∧
    (handleUndoSwipe st).client.currentIndex = st.client.currentIndex - 1 := by
  unfold handleUndoSwipe
  by_cases h : st.client.currentIndex = 0 <;> simp [h]

/-- Claim C7, counterexample: removeMatch and undo are not observationally
equivalent. From the state whose pair (inv1, w1) is decided, with the card in
the matches list and browse index one, removeMatch deletes the SwipeAction
row and drops the card from matches while undo leaves both untouched and
only moves the index, so the resulting states differ. -/
theorem c7_removeMatch_undo_counterexample :
    handleRemoveMatch "inv1" "w1" true
        (FeedState.mk [⟨"inv1", "w1", Action.interested⟩] ⟨[⟨"w1"⟩], 1, [⟨"w1"⟩]⟩) ≠
      handleUndoSwipe
        (FeedState.mk [⟨"inv1", "w1", Action.interested⟩] ⟨[⟨"w1"⟩], 1, [⟨"w1"⟩]⟩) := by
  decide

/-- Claim C7, amended: removeMatch deletes the SwipeAction rows of the pair
server-side and filters the card out of the client matches list, leaving the
browse index and the browsable list unchanged, and is a no-op when the
request fails; the undo handler is a different operation — it leaves the
SwipeAction relation and the matches list unchanged. -/
theorem c7_removeMatch_behavior_amended (inv sid : String) (st : FeedState) :
    (handleRemoveMatch inv sid true st).rows = undoOp inv sid st.rows ∧
    (handleRemoveMatch inv sid true st).client.matchList =
      st.client.matchList.filter (fun m => m.id != sid) ∧
    (handleRemoveMatch inv sid true st).client.currentIndex = st.client.currentIndex ∧
    (handleRemoveMatch inv sid true st).client.browsable = st.client.browsable ∧
    handleRemoveMatch inv sid false st = st ∧
    (handleUndoSwipe st).rows = st.rows ∧
    (handleUndoSwipe st).client.matchList = st.client.matchList := by
  refine ⟨rfl, rfl, rfl, rfl, rfl, ?_, ?_⟩ <;>
    (unfold handleUndoSwipe; by_cases h : st.client.currentIndex = 0 <;> simp [h])

/-- Claim C9: the swipe handler is atomic with respect to its local state.
When the request fails the whole state is unchanged; when it succeeds on the
card at the current index, the index grows by exactly one, the matches list
gains the card exactly when the action is interested, and the swipe is
recorded server-side. -/
theorem c9_handleSwipe_atomic (inv : String) (a : Action) (st : FeedState) :
    handleSwipe inv a false st = st ∧
    ∀ card : StartupCard, st.client.browsable[st.client.currentIndex]? = some card →
      (handleSwipe inv a true st).client.currentIndex = st.client.currentIndex + 1 ∧
      (handleSwipe inv a true st).client.matchList =
        (if a = Action.interested then card :: st.client.matchList else st.client.matchList) ∧
      (handleSwipe inv a true st).rows = swipeOp inv card.id a st.rows := by
  constructor
  · cases hg : st.client.browsable[st.client.currentIndex]? <;> simp [handleSwipe, hg]
  · intro card hg
    simp [handleSwipe, hg]

/-- Claim C9, witness: the theorem applied to a concrete one-card state with
a successful interested swipe. -/
theorem c9_handleSwipe_atomic_witness :
    (handleSwipe "inv1" Action.interested true
        (FeedState.mk [] ⟨[⟨"w1"⟩], 0, []⟩)).client.currentIndex = 0 + 1 ∧
    (handleSwipe "inv1" Action.interested true
        (FeedState.mk [] ⟨[⟨"w1"⟩], 0, []⟩)).client.matchList =
      (if Action.interested = Action.interested then [⟨"w1"⟩] else []) ∧
    (handleSwipe "inv1" Action.interested true
        (FeedState.mk [] ⟨[⟨"w1"⟩], 0, []⟩)).rows =
      swipeOp "inv1" (StartupCard.mk "w1").id Action.interested [] :=
  (c9_handleSwipe_atomic "inv1" Action.interested
    (FeedState.mk [] ⟨[⟨"w1"⟩], 0, []⟩)).2 ⟨"w1"⟩ rfl

/-! ## The swipe/undo trace invariant -/

/-- The swipe update map never changes the pair fields of a row. -/
theorem pairMatch_update (inv w i s : String) (a : Action) (r : SwipeRow) :
    pairMatch inv w (if pairMatch i s r then { r with action := a } else r) =
      pairMatch inv w r := by
  by_cases h : pairMatch i s r = true
  · rw [if_pos h]
    simp [pairMatch]
  · rw [if_neg h]

/-- Selecting a pair out of the mapped table equals mapping the selection. -/
theorem pairRows_map_update (inv w i s : String) (a : Action) (rows : List SwipeRow) :
    pairRows inv w (rows.map (fun r => if pairMatch i s r then { r with action := a } else r)) =
      (pairRows inv w rows).map
        (fun r => if pairMatch i s r then { r with action := a } else r) := by
  simp only [pairRows]
  rw [List.filter_map]
  congr 1
  apply List.filter_congr
  intro r _
  exact pairMatch_update inv w i s a r

/-- A row of a different pair never satisfies the other pair predicate. -/
theorem pairMatch_false_of_other (inv w i s : String) (r : SwipeRow)
    (h : ¬(i = inv ∧ s = w)) (hp : pairMatch inv w r = true) :
    pairMatch i s r = false := by
  simp only [pairMatch, Bool.and_eq_true, beq_iff_eq] at hp
  by_contra hb
  rw [Bool.not_eq_false] at hb
  simp only [pairMatch, Bool.and_eq_true, beq_iff_eq] at hb
  exact h ⟨hb.1 ▸ hp.1, hb.2 ▸ hp.2⟩

/-- Boolean form of pair inequality. -/
theorem beq_pair_false (i inv s w : String) (h : ¬(i = inv ∧ s = w)) :
    (i == inv && s == w) = false := by
  by_contra hb
  rw [Bool.not_eq_false] at hb
  simp only [Bool.and_eq_true, beq_iff_eq] at hb
  exact h hb

/-- A swipe on an unseen pair inserts exactly one row for it. -/
theorem pairRows_swipeOp_new (inv w : String) (a : Action) (rows : List SwipeRow)
    (h : pairRows inv w rows = []) :
    pairRows inv w (swipeOp inv w a rows) = [⟨inv, w, a⟩] := by
  have h0 : rows.filter (pairMatch inv w) = [] := by simpa [pairRows] using h
  have hany : rows.any (pairMatch inv w) = false := by
    rw [← Bool.not_eq_true, List.any_eq_true]
    rintro ⟨r, hr, hp⟩
    exact (List.filter_eq_nil_iff.mp h0) r hr hp
  simp [swipeOp, hany, pairRows, List.filter_append, h0, pairMatch]

/-- A swipe on a decided pair overwrites its single row. -/
theorem pairRows_swipeOp_overwrite (inv w : String) (a a0 : Action) (rows : List SwipeRow)
    (h : pairRows inv w rows = [⟨inv, w, a0⟩]) :
    pairRows inv w (swipeOp inv w a rows) = [⟨inv, w, a⟩] := by
  have h0 : rows.filter (pairMatch inv w) = [⟨inv, w, a0⟩] := by simpa [pairRows] using h
  have hmem : (⟨inv, w, a0⟩ : SwipeRow) ∈ rows.filter (pairMatch inv w) := by
    rw [h0]
    exact List.mem_singleton.mpr rfl
  have hmem2 := List.mem_filter.mp hmem
  have hany : rows.any (pairMatch inv w) = true := List.any_eq_true.mpr ⟨_, hmem2.1, hmem2.2⟩
  have hmap : swipeOp inv w a rows =
      rows.map (fun r => if pairMatch inv w r then { r with action := a } else r) := by
    simp [swipeOp, hany]
  rw [hmap, pairRows_map_update, h]
  simp [pairMatch]

/-- A swipe on one pair leaves every other pair selection unchanged. -/
theorem pairRows_swipeOp_other (inv w i s : String) (a : Action) (rows : List SwipeRow)
    (h : ¬(i = inv ∧ s = w)) :
    pairRows inv w (swipeOp i s a rows) = pairRows inv w rows := by
  by_cases hany : rows.any (pairMatch i s) = true
  · have hmap : swipeOp i s a rows =
        rows.map (fun r => if pairMatch i s r then { r with action := a } else r) := by
      simp [swipeOp, hany]
    rw [hmap, pairRows_map_update]
    conv_rhs => rw [← List.map_id (pairRows inv w rows)]
    apply List.map_congr_left
    intro r hr
    have hp : pairMatch inv w r = true :=
      (List.mem_filter.mp (by simpa [pairRows] using hr)).2
    simp [pairMatch_false_of_other inv w i s r h hp]
  · have hconc : swipeOp i s a rows = rows ++ [⟨i, s, a⟩] := by
      simp [swipeOp, hany]
    have hnew : pairMatch inv w ⟨i, s, a⟩ = false := by
      simpa [pairMatch] using beq_pair_false i inv s w h
    rw [hconc]
    simp [pairRows, List.filter_append, hnew]

/-- An undo of a pair removes every row of that pair. -/
theorem pairRows_undoOp_same (inv w : String) (rows : List SwipeRow) :
    pairRows inv w (undoOp inv w rows) = [] := by
  simp only [pairRows, undoOp]
  rw [List.filter_filter]
  simp

/-- An undo of one pair leaves every other pair selection unchanged. -/
theorem pairRows_undoOp_other (inv w i s : String) (rows : List SwipeRow)
    (h : ¬(i = inv ∧ s = w)) :
    pairRows inv w (undoOp i s rows) = pairRows inv w rows := by
  simp only [pairRows, undoOp]
  rw [List.filter_filter]
  apply List.filter_congr
  intro r _
  by_cases hp : pairMatch inv w r = true
  · simp [hp, pairMatch_false_of_other inv w i s r h hp]
  · have hp2 : pairMatch inv w r = false := by
      cases hx : pairMatch inv w r
      · rfl
      · exact absurd hx hp
    simp [hp2]

/-- One matching-engine call moves the pair selection exactly as the standing
decision moves. -/
theorem pairRows_applyCall (inv w : String) (rows : List SwipeRow) (d : Option Action)
    (h : pairRows inv w rows = decisionRows inv w d) (c : MatchCall) :
    pairRows inv w (applyCall rows c) = decisionRows inv w (stepDecision inv w d c) := by
  cases c with
  | swipe i s a =>
    by_cases hp : i = inv ∧ s = w
    · obtain ⟨rfl, rfl⟩ := hp
      cases d with
      | none =>
        have h0 : pairRows i s rows = [] := by simpa [decisionRows] using h
        simp [applyCall, stepDecision, pairRows_swipeOp_new i s a rows h0, decisionRows]
      | some a0 =>
        have h0 : pairRows i s rows = [⟨i, s, a0⟩] := by simpa [decisionRows] using h
        simp [applyCall, stepDecision, pairRows_swipeOp_overwrite i s a a0 rows h0, decisionRows]
    · simp [applyCall, stepDecision, beq_pair_false i inv s w hp,
        pairRows_swipeOp_other inv w i s a rows hp, h]
  | undo i s =>
    by_cases hp : i = inv ∧ s = w
    · obtain ⟨rfl, rfl⟩ := hp
      simp [applyCall, stepDecision, pairRows_undoOp_same, decisionRows]
    · simp [applyCall, stepDecision, beq_pair_false i inv s w hp,
        pairRows_undoOp_other inv w i s rows hp, h]

/-- The fold of matching-engine calls follows the fold of decisions. -/
theorem pairRows_applyCalls (inv w : String) (cs : List MatchCall) :
    ∀ (rows : List SwipeRow) (d : Option Action),
      pairRows inv w rows = decisionRows inv w d →
      pairRows inv w (applyCalls rows cs) =
        decisionRows inv w (cs.foldl (stepDecision inv w) d) := by
  induction cs with
  | nil =>
    intro rows d h
    simpa [applyCalls] using h
  | cons c cs ih =>
    intro rows d h
    have hstep := pairRows_applyCall inv w rows d h c
    simpa [applyCalls] using ih (applyCall rows c) (stepDecision inv w d c) hstep

/-- Claim C3: for every pair and every finite sequence of swipe and undo
calls applied to the empty table, the rows of the pair are exactly the rows
of the standing decision — one row holding the action of the most recent
swipe of the pair, or no row when the most recent call on the pair was an
undo or the pair was never touched — and in particular at most one
SwipeAction row exists for the pair. -/
theorem c3_swipe_undo_trace_invariant (inv w : String) (cs : List MatchCall) :
    pairRows inv w (applyCalls [] cs) = decisionRows inv w (lastDecision inv w cs) ∧
    (pairRows inv w (applyCalls [] cs)).length ≤ 1 := by
  have h := pairRows_applyCalls inv w cs [] none (by simp [pairRows, decisionRows])
  have h2 : pairRows inv w (applyCalls [] cs) =
      decisionRows inv w (lastDecision inv w cs) := by
    simpa [lastDecision] using h
  refine ⟨h2, ?_⟩
  rw [h2]
  cases lastDecision inv w cs <;> simp [decisionRows]

/-! ## Invite redemption and the schema constraints -/

/-- Claim C4: a successful redemption followed by a second redemption of the
same code by the same user leaves exactly one membership row for the
(workspace, user) pair, and the second call fails with ConflictError,
returning no modified store. -/
theorem c4_redeem_twice_conflict (s : Store) (u code role role2 : String) (s' : Store)
    (h : redeemInviteCode u code role s = Except.ok s') :
    redeemInviteCode u code role2 s' = Except.error RedeemError.ConflictError ∧
    ∃ w : Workspace, s.workspaces.find? (fun x => x.inviteCode == code) = some w ∧
      (s'.members.filter (fun m => m.startup == w.id && m.user == u)).length = 1 := by
  unfold redeemInviteCode at h
  cases hfind : s.workspaces.find? (fun x => x.inviteCode == code) with
  | none =>
    rw [hfind] at h
    cases h
  | some w =>
    rw [hfind] at h
    dsimp only at h
    by_cases hany : s.members.any (fun m => m.startup == w.id && m.user == u) = true
    · rw [if_pos hany] at h
      cases h
    · rw [if_neg hany] at h
      have hs' : ({ s with members := s.members ++ [⟨w.id, u, role⟩] } : Store) = s' :=
        Except.ok.inj h
      subst hs'
      have hanyFalse : s.members.any (fun m => m.startup == w.id && m.user == u) = false := by
        cases hx : s.members.any (fun m => m.startup == w.id && m.user == u)
        · rfl
        · exact absurd hx hany
      constructor
      · unfold redeemInviteCode
        rw [show ({ s with members := s.members ++ [⟨w.id, u, role⟩] } : Store).workspaces =
            s.workspaces from rfl, hfind]
        dsimp only
        have hany2 : (s.members ++ [Membership.mk w.id u role]).any
            (fun m => m.startup == w.id && m.user == u) = true := by
          simp [List.any_append]
        rw [if_pos hany2]
      · refine ⟨w, rfl, ?_⟩
        have hnil : s.members.filter (fun m => m.startup == w.id && m.user == u) = [] := by
          apply List.filter_eq_nil_iff.mpr
          intro m hm hpm
          exact hany (List.any_eq_true.mpr ⟨m, hm, hpm⟩)
        simp [List.filter_append, hnil]

/-- Claim C4, witness: the theorem applied to a one-workspace store whose
code is redeemed successfully once. -/
theorem c4_redeem_twice_conflict_witness :
    redeemInviteCode "u1" "code1" "member"
        (Store.mk [⟨"w1", "Acme", "f1", "code1"⟩] [] []) =
      Except.ok (Store.mk [⟨"w1", "Acme", "f1", "code1"⟩] [⟨"w1", "u1", "member"⟩] []) ∧
    (redeemInviteCode "u1" "code1" "member"
        (Store.mk [⟨"w1", "Acme", "f1", "code1"⟩] [⟨"w1", "u1", "member"⟩] []) =
      Except.error RedeemError.ConflictError ∧
    ∃ w : Workspace,
      (Store.mk [⟨"w1", "Acme", "f1", "code1"⟩] [] []).workspaces.find?
          (fun x => x.inviteCode == "code1") = some w ∧
      ((Store.mk [⟨"w1", "Acme", "f1", "code1"⟩] [⟨"w1", "u1", "member"⟩] []).members.filter
          (fun m => m.startup == w.id && m.user == "u1")).length = 1) :=
  ⟨by rfl,
    c4_redeem_twice_conflict (Store.mk [⟨"w1", "Acme", "f1", "code1"⟩] [] [])
      "u1" "code1" "member" "member" _ (by rfl)⟩

/-- A passing duplicate-key scan yields pairwise distinct membership keys. -/
theorem membership_pairwise_of_scan (ms : List Membership)
    (h : hasDupMembershipKey ms = false) :
    ms.Pairwise (fun a b => ¬(a.startup = b.startup ∧ a.user = b.user)) := by
  induction ms with
  | nil => exact List.Pairwise.nil
  | cons m ms ih =>
    rw [hasDupMembershipKey, Bool.or_eq_false_iff] at h
    refine List.Pairwise.cons ?_ (ih h.2)
    intro b hb hcontra
    have : ms.any (fun x => x.startup == m.startup && x.user == m.user) = true :=
      List.any_eq_true.mpr ⟨b, hb, by simp [hcontra.1, hcontra.2]⟩
    rw [this] at h
    cases h.1

/-- A passing duplicate-key scan yields pairwise distinct swipe keys. -/
theorem swipe_pairwise_of_scan (rs : List SwipeRow)
    (h : hasDupSwipeKey rs = false) :
    rs.Pairwise (fun a b => ¬(a.investor = b.investor ∧ a.startup = b.startup)) := by
  induction rs with
  | nil => exact List.Pairwise.nil
  | cons r rs ih =>
    rw [hasDupSwipeKey, Bool.or_eq_false_iff] at h
    refine List.Pairwise.cons ?_ (ih h.2)
    intro b hb hcontra
    have : rs.any (fun x => x.investor == r.investor && x.startup == r.startup) = true :=
      List.any_eq_true.mpr ⟨b, hb, by simp [hcontra.1, hcontra.2]⟩
    rw [this] at h
    cases h.1

/-- Claim C5, counterexample: the declared schema constraints do not make
invite codes globally unique. A store whose two workspaces hold the same
invite code passes every constraint the schema declares, so the claimed
store-level invariant fails. -/
theorem c5_invite_code_unique_counterexample :
    ¬(∀ s : Store, schemaConstraintsOk s = true → inviteCodesUnique s) := by
  intro hall
  have h := hall (Store.mk [⟨"w1", "A", "f1", "dup"⟩, ⟨"w2", "B", "f2", "dup"⟩] [] [])
    (by decide)
  rw [inviteCodesUnique] at h
  rcases h with _ | ⟨hrel, _⟩
  exact hrel ⟨"w2", "B", "f2", "dup"⟩ (List.mem_singleton.mpr rfl) rfl

/-- Claim C5, amended: the schema-declared constraints enforce the
(workspace, user) uniqueness of memberships and the (investor, workspace)
uniqueness of swipe rows, but declare nothing about startups.invite_code, so
global invite-code uniqueness is not a store-enforced invariant. -/
theorem c5_schema_uniqueness_amended (s : Store) (h : schemaConstraintsOk s = true) :
    membershipPairsUnique s ∧ swipePairsUnique s.swipes := by
  rw [schemaConstraintsOk, Bool.and_eq_true, Bool.and_eq_true] at h
  obtain ⟨⟨h1, h2⟩, _⟩ := h
  rw [Bool.not_eq_true'] at h1 h2
  exact ⟨membership_pairwise_of_scan s.members h1, swipe_pairwise_of_scan s.swipes h2⟩

/-- Claim C5, witness: the amended theorem applied to a concrete store that
passes the schema constraints. -/
theorem c5_schema_uniqueness_amended_witness :
    schemaConstraintsOk
        (Store.mk [⟨"w1", "A", "f1", "c1"⟩] [⟨"w1", "f1", "founder"⟩]
          [⟨"inv1", "w1", Action.interested⟩]) = true ∧
    (membershipPairsUnique
        (Store.mk [⟨"w1", "A", "f1", "c1"⟩] [⟨"w1", "f1", "founder"⟩]
          [⟨"inv1", "w1", Action.interested⟩]) ∧
      swipePairsUnique
        (Store.mk [⟨"w1", "A", "f1", "c1"⟩] [⟨"w1", "f1", "founder"⟩]
          [⟨"inv1", "w1", Action.interested⟩]).swipes) :=
  ⟨by decide,
    c5_schema_uniqueness_amended
      (Store.mk [⟨"w1", "A", "f1", "c1"⟩] [⟨"w1", "f1", "founder"⟩]
        [⟨"inv1", "w1", Action.interested⟩]) (by decide)⟩

/-! ## Metrics engine claims -/

/-- Claim C6: computeSnapshot satisfies the spec formulas. On the concrete
example — incomes 100 and 50, expenses 30 and 20 in two different months,
one investment of 500 and three non-investor membership rows beside one
investor row — it returns totalRaised 500, balance 600, monthlyBurn 25,
runwayMonths 24 and teamSize 3. In general the balance is the income sum
plus the raised total minus the expense sum, and with no expense history the
burn is 0 and the runway is the none sentinel. -/
theorem c6_computeSnapshot_formulas (inp : SnapshotInput) :
    computeSnapshot
        (SnapshotInput.mk [⟨100, 0⟩, ⟨50, 1⟩] [⟨30, 0⟩, ⟨20, 1⟩] [500]
          ["founder", "manager", "member", "investor"]) =
      ⟨500, 600, 25, some 24, 3⟩ ∧
    (computeSnapshot inp).balance =
      (inp.incomes.map (fun e => e.amount)).sum + inp.investments.sum -
        (inp.expenses.map (fun e => e.amount)).sum ∧
    (inp.expenses = [] →
      (computeSnapshot inp).monthlyBurn = 0 ∧ (computeSnapshot inp).runwayMonths = none) := by
  refine ⟨?_, rfl, ?_⟩
  · norm_num [computeSnapshot]
    decide
  · intro h
    simp [computeSnapshot, h]

/-- Claim C6, witness: the theorem applied to the empty-ledger input, whose
expense list is empty. -/
theorem c6_computeSnapshot_formulas_witness :
    (computeSnapshot (SnapshotInput.mk [] [] [] [])).monthlyBurn = 0 ∧
    (computeSnapshot (SnapshotInput.mk [] [] [] [])).runwayMonths = none :=
  (c6_computeSnapshot_formulas (SnapshotInput.mk [] [] [] [])).2.2 rfl

end StartupOps
